import Mathlib

set_option linter.unusedVariables false

/-!
Verification development for the NanoClaw Firecracker microVM runner
(`src/firecracker-runner.ts`).

The runner is modelled as pure Lean functions.  Every external effect
(`execSync` shell commands, `fs` calls, the spawned hypervisor process,
SSH commands) is an operation that either succeeds or throws; each such
operation's outcome is supplied by an explicit oracle record, and each
model function returns, besides its value, the list of effectful actions
it performed (`Act`), in execution order.  A thrown JavaScript exception
is an `Except.error`; a `try/catch` in the source is an explicit match on
an `Except` (or an oracle-guarded branch when the catch swallows the
error).  Wall-clock durations are not modelled (`durationMs` is `0`,
polling loops are collapsed to their final outcome).

The admission logic of `runTask` (the `activeVMs` polling loop) is a
concurrency property; it is modelled separately as a small-step
transition system (`Sys`/`Step` below) in which each maximal
synchronous block of the async function — the code between two `await`
points — is one atomic step, which is exactly the interleaving
guarantee of the Node.js event loop for this fully synchronous body.
-/

namespace NanoClaw

/-- Mirrors the `Mount` interface of the runner. -/
structure Mount where
  hostPath : String
  guestPath : String
  readOnly : Bool
deriving DecidableEq, Repr

/-- Mirrors the `TaskResult` interface.  `durationMs` is always `0` here
because wall-clock time is not modelled. -/
structure TaskResult where
  output : String
  filesChanged : List String
  exitCode : Nat
  durationMs : Nat
deriving DecidableEq, Repr

/-- Mirrors the `MicroVM` record registered in `activeVMs`.  The
`process : ChildProcess` handle has no data content relevant to the
claims; whether the process is already dead is part of the cleanup
oracle instead. -/
structure MicroVM where
  vmId : Nat
  groupId : String
  ip : String
  tapDevice : String
  rootfsPath : String
  socketPath : String
  startedAt : Nat
deriving DecidableEq, Repr

/-- One effectful action of the runner, recorded in execution order.
The `td` constructors are the teardown (release) sub-steps; everything
else is allocation or staging work. -/
inductive Act where
  | tapAdd (tap : String)
  | tapUp (tap : String)
  | tapMaster (tap : String)
  | cpBase (dst : String)
  | mkdirScratch (p : String)
  | mountImg (img mp : String)
  | injectKey
  | injectCred
  | injectGatewayKey
  | skipMount (hostPath : String)
  | copyMount (hostPath guestTarget : String)
  | copyMountFail (hostPath : String)
  | writeNetConfig
  | writeResolvConf
  | umountImg (mp : String)
  | rmScratch (mp : String)
  | unlinkStale (p : String)
  | spawnFC (vmId : Nat)
  | apiCall (endpoint : String)
  | registerVm (groupId : String) (vmId : Nat)
  | scpSync (guestPath hostPath : String) (ok : Bool)
  | tdKill (attempted ok : Bool)
  | tdDestroyTap (tap : String) (ok : Bool)
  | tdUnlinkRootfs (p : String) (ok : Bool)
  | tdUnlinkSocket (p : String) (ok : Bool)
  | tdRemoveMap (groupId : String)
deriving DecidableEq, Repr

/-- True exactly for teardown (resource-release) actions. -/
def Act.isTd : Act → Bool
  | Act.tdKill _ _ => true
  | Act.tdDestroyTap _ _ => true
  | Act.tdUnlinkRootfs _ _ => true
  | Act.tdUnlinkSocket _ _ => true
  | Act.tdRemoveMap _ => true
  | _ => false

/-- Recognizes the subprocess-kill teardown step. -/
def isTdKill : Act → Bool
  | Act.tdKill _ _ => true
  | _ => false

/-- Recognizes the TAP-device-destruction teardown step. -/
def isTdDestroyTap : Act → Bool
  | Act.tdDestroyTap _ _ => true
  | _ => false

/-- Recognizes the rootfs-image-deletion teardown step. -/
def isTdUnlinkRootfs : Act → Bool
  | Act.tdUnlinkRootfs _ _ => true
  | _ => false

/-- Recognizes the control-socket-deletion teardown step. -/
def isTdUnlinkSocket : Act → Bool
  | Act.tdUnlinkSocket _ _ => true
  | _ => false

/-- Recognizes the live-map-removal teardown step. -/
def isTdRemoveMap : Act → Bool
  | Act.tdRemoveMap _ => true
  | _ => false

/-- Helper: is an `Except` a success? -/
def exceptOk {ε α : Type} : Except ε α → Bool
  | Except.ok _ => true
  | Except.error _ => false

-- ── Network Identity Allocator (`allocateVm`, lines 153-160) ──────────

/-- The string thrown by `allocateVm` when the id space is exhausted. -/
def maxVmMsg : String := "[FC] Maximum VM count exceeded (253 concurrent VMs)"

/-- Last octet of the derived IP address: the source builds the string
172.16.0.(vmId+1), so the numeric last octet is `vmId + 1`. -/
def ipLastOctet (vmId : Nat) : Nat := vmId + 1

/-- The derived IP string, exactly as built by the source. -/
def ipString (vmId : Nat) : String := "172.16.0." ++ toString (ipLastOctet vmId)

/-- Model of `allocateVm(groupId)`.  The module-level counter `nextVmId`
is passed and returned explicitly.  The source post-increments the
counter before the capacity check, so the counter advances even when
the call throws. -/
def allocateVm (groupId : String) (nextVmId : Nat) : Except String (Nat × String) × Nat :=
  let vmId := nextVmId
  let next := vmId + 1
  if 253 < vmId then (Except.error maxVmMsg, next)
  else (Except.ok (vmId, ipString vmId), next)

/-- Iterates `allocateVm` `k` times from a counter value, collecting the
successfully returned ids (in order) and the final counter. -/
def allocSeq (groupId : String) : Nat → Nat → List Nat × Nat
  | next, 0 => ([], next)
  | next, Nat.succ k =>
    match allocateVm groupId next with
    | (Except.ok (id, _), next2) =>
      let r := allocSeq groupId next2 k
      (id :: r.1, r.2)
    | (Except.error _, next2) => allocSeq groupId next2 k

-- ── Virtual Network Interface Manager (lines 167-187) ─────────────────

/-- Outcomes of the three shell commands in `createTapDevice`. -/
structure TapOracle where
  addOk : Bool
  upOk : Bool
  masterOk : Bool
deriving DecidableEq, Repr

/-- Model of `createTapDevice(vmId)`: `ip tuntap add`, `ip link set up`,
`ip link set master`, in order; any failure is rethrown as one fatal
error.  The trace records the commands that succeeded (a failed `add`
creates no device; a failure after `add` leaves the device behind). -/
def createTapDevice (o : TapOracle) (vmId : Nat) : Except String String × List Act :=
  let tap := "tap" ++ toString vmId
  if o.addOk = false then
    (Except.error ("[FC] Failed to create TAP device " ++ tap), [])
  else if o.upOk = false then
    (Except.error ("[FC] Failed to create TAP device " ++ tap), [Act.tapAdd tap])
  else if o.masterOk = false then
    (Except.error ("[FC] Failed to create TAP device " ++ tap), [Act.tapAdd tap, Act.tapUp tap])
  else
    (Except.ok tap, [Act.tapAdd tap, Act.tapUp tap, Act.tapMaster tap])

/-- Model of `destroyTapDevice(tap)`: one `ip link delete` whose failure
is caught and logged ("already gone"), never rethrown. -/
def destroyTapDevice (deleteOk : Bool) (tap : String) : List Act :=
  [Act.tdDestroyTap tap deleteOk]

-- ── Filesystem Stager (`prepareRootfs`, lines 189-262) ────────────────

/-- The private disk image path for a VM id. -/
def rootfsPathOf (vmId : Nat) : String := "/tmp/nanoclaw-vm-" ++ toString vmId ++ ".ext4"

/-- The scratch loop-mount point for a VM id. -/
def mountPointOf (vmId : Nat) : String := "/tmp/nanoclaw-mount-" ++ toString vmId

/-- The hypervisor control socket path for a VM id. -/
def socketPathOf (vmId : Nat) : String := "/tmp/nanoclaw-fc-" ++ toString vmId ++ ".socket"

/-- Models `guestPath.replace(/^\//, "")`: drops one leading slash. -/
def stripLeadingSlash (p : String) : String :=
  if p.startsWith "/" then p.drop 1 else p

/-- Models `path.join(mountPoint, strippedGuestPath)`. -/
def guestTargetOf (mountPoint guestPath : String) : String :=
  mountPoint ++ "/" ++ stripLeadingSlash guestPath

/-- Outcomes of the effectful steps inside `prepareRootfs`.  Per-mount
outcomes are keyed by the mount's host path.  Each multi-command
injection block (key / credentials / gateway secret / one mount's
mkdir-cp-chown) is collapsed to a single success flag, since any of its
commands throwing has the same effect: the block throws. -/
structure PrepOracle where
  cpBaseOk : Bool
  mkdirScratchOk : Bool
  mountOk : Bool
  keyOk : Bool
  credDirExists : Bool
  credOk : Bool
  gatewayKeySet : Bool
  gatewayOk : Bool
  hostExists : String → Bool
  mountCopyOk : String → Bool
  netWriteOk : Bool
  resolvWriteOk : Bool
  umountOk : Bool
  rmScratchOk : Bool

/-- The per-mount copy loop of `prepareRootfs` (lines 234-244): a mount
whose host path does not exist is skipped (logged) and the loop
continues; otherwise its tree is copied to the derived guest target,
and a copy failure throws out of the loop. -/
def copyMountLoop (hostExists copyOk : String → Bool) (mountPoint : String) :
    List Mount → Option String × List Act
  | [] => (none, [])
  | m :: rest =>
    if hostExists m.hostPath = false then
      let r := copyMountLoop hostExists copyOk mountPoint rest
      (r.1, Act.skipMount m.hostPath :: r.2)
    else if copyOk m.hostPath then
      let r := copyMountLoop hostExists copyOk mountPoint rest
      (r.1, Act.copyMount m.hostPath (guestTargetOf mountPoint m.guestPath) :: r.2)
    else
      (some ("[FC] mount copy failed: " ++ m.hostPath), [Act.copyMountFail m.hostPath])

/-- The body of `prepareRootfs`'s `try` block (lines 205-254): key,
credential and gateway-secret injection, the mount copy loop, then the
network and DNS configuration writes.  Returns the first thrown error
(if any) together with the actions performed. -/
def stageBody (o : PrepOracle) (mountPoint : String) (mounts : List Mount) :
    Option String × List Act :=
  if o.keyOk = false then (some "[FC] ssh key injection failed", [])
  else
    let t1 := [Act.injectKey]
    if o.credDirExists && !o.credOk then (some "[FC] credential injection failed", t1)
    else
      let t2 := t1 ++ (if o.credDirExists then [Act.injectCred] else [])
      if o.gatewayKeySet && !o.gatewayOk then (some "[FC] gateway key injection failed", t2)
      else
        let t3 := t2 ++ (if o.gatewayKeySet then [Act.injectGatewayKey] else [])
        match copyMountLoop o.hostExists o.mountCopyOk mountPoint mounts with
        | (some e, tm) => (some e, t3 ++ tm)
        | (none, tm) =>
          if o.netWriteOk = false then (some "[FC] network config write failed", t3 ++ tm)
          else if o.resolvWriteOk = false then
            (some "[FC] resolv conf write failed", t3 ++ tm ++ [Act.writeNetConfig])
          else
            (none, t3 ++ tm ++ [Act.writeNetConfig, Act.writeResolvConf])

/-- Model of `prepareRootfs`.  Copy the base image, make the scratch
directory, loop-mount the copy (all three before the `try`), run the
injection body, then the `finally`: `umount` followed by removal of the
scratch directory.  If the `finally`'s `umount` itself throws, the
removal does not run and that exception propagates (replacing the
body's, as in JavaScript).  The middle component of the result is true
iff the image is still loop-mounted when the function exits. -/
def prepareRootfs (o : PrepOracle) (vmId : Nat) (ip claudeAuthDir : String)
    (mounts : List Mount) : Except String String × Bool × List Act :=
  let rootfsPath := rootfsPathOf vmId
  let mountPoint := mountPointOf vmId
  if o.cpBaseOk = false then
    (Except.error "[FC] cp base rootfs failed", false, [])
  else if o.mkdirScratchOk = false then
    (Except.error "[FC] mkdir mount point failed", false, [Act.cpBase rootfsPath])
  else if o.mountOk = false then
    (Except.error "[FC] loop mount failed", false,
      [Act.cpBase rootfsPath, Act.mkdirScratch mountPoint])
  else
    let pre := [Act.cpBase rootfsPath, Act.mkdirScratch mountPoint,
      Act.mountImg rootfsPath mountPoint]
    let body := stageBody o mountPoint mounts
    if o.umountOk = false then
      (Except.error "[FC] umount failed", true, pre ++ body.2 ++ [Act.umountImg mountPoint])
    else if o.rmScratchOk = false then
      (Except.error "[FC] rm mount point failed", false,
        pre ++ body.2 ++ [Act.umountImg mountPoint, Act.rmScratch mountPoint])
    else
      match body.1 with
      | some e =>
        (Except.error e, false,
          pre ++ body.2 ++ [Act.umountImg mountPoint, Act.rmScratch mountPoint])
      | none =>
        (Except.ok rootfsPath, false,
          pre ++ body.2 ++ [Act.umountImg mountPoint, Act.rmScratch mountPoint])

-- ── Hypervisor Controller (lines 264-351) ─────────────────────────────

/-- Outcomes of the steps in `startFirecrackerProcess`.  `spawn` itself
never throws synchronously in Node; failure manifests as the control
socket never appearing, upon which the source kills the process and
throws. -/
structure SpawnOracle where
  oldSocketExists : Bool
  unlinkOldOk : Bool
  socketAppears : Bool
deriving DecidableEq, Repr

/-- Model of `startFirecrackerProcess(vmId)`: unlink a stale socket if
present (uncaught on failure), spawn the hypervisor, poll for the
socket; if it never appears, SIGKILL the process and throw. -/
def startFirecrackerProcess (o : SpawnOracle) (vmId : Nat) : Except String String × List Act :=
  let sock := socketPathOf vmId
  if o.oldSocketExists && !o.unlinkOldOk then
    (Except.error "[FC] unlink stale socket failed", [])
  else
    let t0 := if o.oldSocketExists then [Act.unlinkStale sock] else []
    if o.socketAppears then
      (Except.ok sock, t0 ++ [Act.spawnFC vmId])
    else
      (Except.error ("[FC] Firecracker socket did not appear at " ++ sock),
        t0 ++ [Act.spawnFC vmId, Act.tdKill true true])

/-- The five control-plane endpoints configured by `configureAndBootVM`,
in call order. -/
def bootEndpoints : List String :=
  ["/boot-source", "/drives/rootfs", "/network-interfaces/eth0", "/machine-config", "/actions"]

/-- Issues the control-plane calls in order; the first failing `curl`
throws and the remaining calls are not made. -/
def runApiCalls (ok : String → Bool) : List String → Option String × List Act
  | [] => (none, [])
  | ep :: rest =>
    if ok ep then
      let r := runApiCalls ok rest
      (r.1, Act.apiCall ep :: r.2)
    else (some ("[FC] api call failed: " ++ ep), [])

/-- Model of `configureAndBootVM`. -/
def configureAndBootVM (ok : String → Bool) (vmId : Nat) (ip rootfsPath tapDevice : String) :
    Except String Unit × List Act :=
  match runApiCalls ok bootEndpoints with
  | (some e, tr) => (Except.error e, tr)
  | (none, tr) => (Except.ok (), tr)

-- ── Remote Execution Bridge (lines 353-440) ───────────────────────────

/-- The timeout error the catch branch of `executeTaskViaSSH` intends
to throw.  The guard protecting it reads `err.killed`, which an
`execSync` error never carries (see `SSHErr.killed`), so in the program
this message is dead code. -/
def timedOutMsg (timeoutMs : Nat) : String :=
  "[FC] Task timed out after " ++ toString timeoutMs ++ "ms"

/-- The fields of the error object thrown by `execSync`: it is built
from the `spawnSync` result, whose properties are pid, output, stdout,
stderr, status and signal.  A child killed on timeout yields
`status = null` and `signal = SIGTERM`. -/
structure SSHErr where
  status : Option Nat
  signal : Option String
  stdout : String
  stderr : String
deriving DecidableEq, Repr

/-- The property access `err.killed` performed by the source's catch
branch.  An `execSync` error has no `killed` field (that property
exists only on the asynchronous `exec` family's errors), so the
truthiness test reads `undefined` and is always false. -/
def SSHErr.killed (e : SSHErr) : Bool := false

/-- Outcome of one `execSync` SSH command. -/
inductive CmdOutcome where
  | ok (out : String)
  | err (e : SSHErr)
deriving DecidableEq, Repr

/-- The value returned from the catch branch of `executeTaskViaSSH`:
stdout and stderr concatenated, and `err.status ?? 1` as exit code
(`status` is null for a timed-out child, so the fallback 1 applies). -/
def sshFailurePayload (e : SSHErr) : String × Nat :=
  (e.stdout ++ "\n" ++ e.stderr, e.status.getD 1)

/-- Model of `executeTaskViaSSH(ip, task, timeoutMs)`: upload the task
text, then run it; both commands are inside one `try`.  The catch
tests `if (err.killed)` to throw a timeout error, but `SSHErr.killed`
is always false on `execSync` errors, so every failure — a timeout
included — returns the captured output with `err.status ?? 1`. -/
def executeTaskViaSSH (ip task : String) (timeoutMs : Nat) (upload run : CmdOutcome) :
    Except String (String × Nat) :=
  match upload with
  | CmdOutcome.err e =>
    if e.killed then Except.error (timedOutMsg timeoutMs)
    else Except.ok (sshFailurePayload e)
  | CmdOutcome.ok _ =>
    match run with
    | CmdOutcome.ok out => Except.ok (out, 0)
    | CmdOutcome.err e =>
      if e.killed then Except.error (timedOutMsg timeoutMs)
      else Except.ok (sshFailurePayload e)

/-- Model of `getChangedFiles`: its own try/catch degrades any failure
to an empty list, so it never throws. -/
def getChangedFiles (ip : String) (result : Option (List String)) : List String :=
  match result with
  | some files => files
  | none => []

/-- Model of `syncFilesBack(ip, mounts)`: read-only mounts are skipped;
each other mount's guest tree is copied back over its host path by
`scp`, and a per-mount failure is caught and logged, so the loop always
continues with the next mount. -/
def syncFilesBack (ip : String) (copyOk : Mount → Bool) : List Mount → List Act
  | [] => []
  | m :: rest =>
    if m.readOnly then syncFilesBack ip copyOk rest
    else Act.scpSync m.guestPath m.hostPath (copyOk m) :: syncFilesBack ip copyOk rest

-- ── Sandbox Lifecycle Registry (`cleanupVM`, lines 442-469) ───────────

/-- Outcomes of the cleanup sub-steps.  `procDead` models the
`vm.process.killed` guard; `killOk` whether `process.kill` itself
throws. -/
structure CleanupOracle where
  procDead : Bool
  killOk : Bool
  tapDeleteOk : Bool
  rootfsUnlinkOk : Bool
  socketUnlinkOk : Bool
deriving DecidableEq, Repr

/-- JavaScript `Map.delete`: drop the entry with the given key. -/
def eraseKey (l : List (String × MicroVM)) (k : String) : List (String × MicroVM) :=
  l.filter (fun p => p.1 != k)

/-- JavaScript `Map.set`: bind the key, replacing any previous entry. -/
def mapSet (l : List (String × MicroVM)) (k : String) (v : MicroVM) :
    List (String × MicroVM) :=
  (k, v) :: eraseKey l k

/-- JavaScript `Map.get`/`has`. -/
def lookupKey (l : List (String × MicroVM)) (k : String) : Option MicroVM :=
  match l with
  | [] => none
  | p :: rest => if p.1 = k then some p.2 else lookupKey rest k

/-- Runs a sequence of effectful steps.  Each step is
(succeeds, is-wrapped-in-try/catch, recorded action): a failing caught
step is swallowed and the sequence continues; a failing uncaught step
raises, abandoning the remaining steps. -/
def runSteps : List (Bool × Bool × Act) → Except String (List Act)
  | [] => Except.ok []
  | s :: rest =>
    if s.1 then (runSteps rest).map (fun tr => s.2.2 :: tr)
    else if s.2.1 then (runSteps rest).map (fun tr => s.2.2 :: tr)
    else Except.error "uncaught step failure"

/-- The five sub-steps of `cleanupVM`, in source order, each wrapped in
its own try/catch (the TAP deletion's catch lives inside
`destroyTapDevice`; the map removal cannot fail). -/
def cleanupSteps (o : CleanupOracle) (vm : MicroVM) : List (Bool × Bool × Act) :=
  [((o.procDead || o.killOk), true, Act.tdKill (!o.procDead) o.killOk),
   (o.tapDeleteOk, true, Act.tdDestroyTap vm.tapDevice o.tapDeleteOk),
   (o.rootfsUnlinkOk, true, Act.tdUnlinkRootfs vm.rootfsPath o.rootfsUnlinkOk),
   (o.socketUnlinkOk, true, Act.tdUnlinkSocket vm.socketPath o.socketUnlinkOk),
   (true, true, Act.tdRemoveMap vm.groupId)]

/-- Model of `cleanupVM(vm)`: kill the hypervisor process (skipped if
already dead, failure caught), destroy the TAP device (failure caught),
unlink the disk image (caught), unlink the control socket (caught), and
remove the sandbox from the live map. -/
def cleanupVM (o : CleanupOracle) (vm : MicroVM) (live : List (String × MicroVM)) :
    Except String (List (String × MicroVM) × List Act) :=
  (runSteps (cleanupSteps o vm)).map (fun tr => (eraseKey live vm.groupId, tr))

-- ── Public API (`runTask`, lines 478-574) ─────────────────────────────

/-- The global mutable state of the runner module: the id counter and
the live-sandbox map. -/
structure RunState where
  nextVmId : Nat
  activeVMs : List (String × MicroVM)
deriving DecidableEq, Repr

/-- All outcomes of one `runTask` invocation's effectful steps.
`sshReady` collapses the `waitForSSH` polling loop to its outcome. -/
structure RunOracle where
  tap : TapOracle
  prep : PrepOracle
  spawn : SpawnOracle
  api : String → Bool
  sshReady : Bool
  upload : CmdOutcome
  run : CmdOutcome
  changed : Option (List String)
  syncOk : Mount → Bool
  cleanup : CleanupOracle

/-- The error thrown by `waitForSSH` on boot-readiness timeout
(SSH_BOOT_TIMEOUT_MS = 30000). -/
def sshTimeoutMsg (ip : String) : String :=
  "[FC] SSH did not become available at " ++ ip ++ " within 30000ms"

/-- The `TaskResult` synthesized by `runTask`'s catch block. -/
def errTaskResult (msg : String) : TaskResult :=
  { output := "Error: " ++ msg, filesChanged := [], exitCode := 1, durationMs := 0 }

/-- The `finally` path taken when the `vm` record was never built: the
TAP device is destroyed (tolerating absence) and the image and socket
paths are unlinked inside their own try/catches. -/
def nullCleanup (o : RunOracle) (vmId : Nat) : List Act :=
  destroyTapDevice o.cleanup.tapDeleteOk ("tap" ++ toString vmId) ++
  [Act.tdUnlinkRootfs (rootfsPathOf vmId) o.cleanup.rootfsUnlinkOk,
   Act.tdUnlinkSocket (socketPathOf vmId) o.cleanup.socketUnlinkOk]

/-- Catch-then-finally for an error thrown before `vm` was assigned. -/
def finishNoVm (o : RunOracle) (msg : String) (nv : Nat)
    (live : List (String × MicroVM)) (vmId : Nat) (tr : List Act) :
    Except String TaskResult × RunState × List Act :=
  (Except.ok (errTaskResult msg), { nextVmId := nv, activeVMs := live },
    tr ++ nullCleanup o vmId)

/-- Catch-then-finally for an error thrown after `vm` was assigned and
registered: the catch synthesizes the error result, then the `finally`
runs `cleanupVM`; were cleanup itself to throw, that exception would
replace the result (it never does, see `cleanupVM_eq`). -/
def finishWithVm (o : RunOracle) (msg : String) (nv : Nat)
    (live : List (String × MicroVM)) (vm : MicroVM) (tr : List Act) :
    Except String TaskResult × RunState × List Act :=
  match cleanupVM o.cleanup vm live with
  | Except.ok r => (Except.ok (errTaskResult msg), { nextVmId := nv, activeVMs := r.1 }, tr ++ r.2)
  | Except.error e2 => (Except.error e2, { nextVmId := nv, activeVMs := live }, tr)

/-- Model of `runTask(groupId, task, mounts, claudeAuthDir, timeoutMs)`
from the point where the admission polling loop (modelled separately as
the `Step` transition system) has exited.  `allocateVm` is called
before the `try`, so its capacity error propagates as an
`Except.error`; every later failure is caught and converted to an error
`TaskResult`, and the `finally` releases resources on every path. -/
def runTask (o : RunOracle) (groupId task : String) (mounts : List Mount)
    (claudeAuthDir : String) (timeoutMs : Nat) (s : RunState) :
    Except String TaskResult × RunState × List Act :=
  match allocateVm groupId s.nextVmId with
  | (Except.error e, nv) => (Except.error e, { nextVmId := nv, activeVMs := s.activeVMs }, [])
  | (Except.ok (vmId, ip), nv) =>
    match createTapDevice o.tap vmId with
    | (Except.error e, tr1) => finishNoVm o e nv s.activeVMs vmId tr1
    | (Except.ok tapDevice, tr1) =>
      match prepareRootfs o.prep vmId ip claudeAuthDir mounts with
      | (Except.error e, _, tr2) => finishNoVm o e nv s.activeVMs vmId (tr1 ++ tr2)
      | (Except.ok rootfsPath, _, tr2) =>
        match startFirecrackerProcess o.spawn vmId with
        | (Except.error e, tr3) => finishNoVm o e nv s.activeVMs vmId (tr1 ++ tr2 ++ tr3)
        | (Except.ok socketPath, tr3) =>
          let vm : MicroVM :=
            { vmId := vmId, groupId := groupId, ip := ip, tapDevice := tapDevice,
              rootfsPath := rootfsPath, socketPath := socketPath, startedAt := 0 }
          let live1 := mapSet s.activeVMs groupId vm
          let trPre := tr1 ++ tr2 ++ tr3 ++ [Act.registerVm groupId vmId]
          match configureAndBootVM o.api vmId ip rootfsPath tapDevice with
          | (Except.error e, tr4) => finishWithVm o e nv live1 vm (trPre ++ tr4)
          | (Except.ok _, tr4) =>
            if o.sshReady = false then
              finishWithVm o (sshTimeoutMsg ip) nv live1 vm (trPre ++ tr4)
            else
              match executeTaskViaSSH ip task timeoutMs o.upload o.run with
              | Except.error e => finishWithVm o e nv live1 vm (trPre ++ tr4)
              | Except.ok r =>
                let filesChanged := getChangedFiles ip o.changed
                let trSync := syncFilesBack ip o.syncOk mounts
                match cleanupVM o.cleanup vm live1 with
                | Except.ok c =>
                  (Except.ok { output := r.1, filesChanged := filesChanged,
                               exitCode := r.2, durationMs := 0 },
                    { nextVmId := nv, activeVMs := c.1 },
                    trPre ++ tr4 ++ trSync ++ c.2)
                | Except.error e2 =>
                  (Except.error e2, { nextVmId := nv, activeVMs := live1 },
                    trPre ++ tr4 ++ trSync)

/-- The trace of effectful actions performed by one `runTask` call. -/
def runTrace (o : RunOracle) (groupId task : String) (mounts : List Mount)
    (claudeAuthDir : String) (timeoutMs : Nat) (s : RunState) : List Act :=
  (runTask o groupId task mounts claudeAuthDir timeoutMs s).2.2

/-- Did some step inside `runTask`'s `try` block throw (TAP creation,
staging, hypervisor start, boot configuration, SSH readiness)?
Mirrors the source's sequence of fallible calls; the final arm matches
a thrown execution error for structural fidelity, but
`executeTaskViaSSH` never throws because its timeout check is dead. -/
def bodyFails (o : RunOracle) (vmId : Nat) (ip task claudeAuthDir : String)
    (mounts : List Mount) (timeoutMs : Nat) : Bool :=
  match createTapDevice o.tap vmId with
  | (Except.error _, _) => true
  | (Except.ok tapDevice, _) =>
    match prepareRootfs o.prep vmId ip claudeAuthDir mounts with
    | (Except.error _, _, _) => true
    | (Except.ok rootfsPath, _, _) =>
      match startFirecrackerProcess o.spawn vmId with
      | (Except.error _, _) => true
      | (Except.ok _, _) =>
        match configureAndBootVM o.api vmId ip rootfsPath tapDevice with
        | (Except.error _, _) => true
        | (Except.ok _, _) =>
          if o.sshReady = false then true
          else
            match executeTaskViaSSH ip task timeoutMs o.upload o.run with
            | Except.error _ => true
            | Except.ok _ => false

-- ── Derived success predicates (for trace accounting) ─────────────────

/-- All three TAP commands succeed. -/
def tapOkB (o : TapOracle) : Bool := o.addOk && o.upOk && o.masterOk

/-- `startFirecrackerProcess` gets as far as spawning the subprocess. -/
def spawnProceedsB (o : SpawnOracle) : Bool := !o.oldSocketExists || o.unlinkOldOk

/-- `startFirecrackerProcess` returns successfully. -/
def spawnOkB (o : SpawnOracle) : Bool := spawnProceedsB o && o.socketAppears

/-- The `try` body of `stageBody` runs to completion. -/
def stageBodyOkB (o : PrepOracle) (mounts : List Mount) : Bool :=
  o.keyOk && (!o.credDirExists || o.credOk) && (!o.gatewayKeySet || o.gatewayOk) &&
  mounts.all (fun m => !o.hostExists m.hostPath || o.mountCopyOk m.hostPath) &&
  o.netWriteOk && o.resolvWriteOk

/-- `prepareRootfs` returns successfully. -/
def prepOkB (o : PrepOracle) (mounts : List Mount) : Bool :=
  o.cpBaseOk && o.mkdirScratchOk && o.mountOk && stageBodyOkB o mounts &&
  o.umountOk && o.rmScratchOk

/-- All five control-plane calls succeed. -/
def apiOkB (ok : String → Bool) : Bool := bootEndpoints.all ok

/-- The hypervisor subprocess was spawned during this invocation. -/
def procSpawnedB (o : RunOracle) (mounts : List Mount) : Bool :=
  tapOkB o.tap && prepOkB o.prep mounts && spawnProceedsB o.spawn

/-- The sandbox record was registered in the live map (`activeVMs.set`
is reached exactly when TAP creation, staging and hypervisor start all
succeeded). -/
def registeredB (o : RunOracle) (mounts : List Mount) : Bool :=
  tapOkB o.tap && prepOkB o.prep mounts && spawnOkB o.spawn

/-- All the non-mount staging steps succeed (hypothesis bundle for the
mount-skip property). -/
def stageStepsOk (o : PrepOracle) : Bool :=
  o.cpBaseOk && o.mkdirScratchOk && o.mountOk && o.keyOk && o.credOk && o.gatewayOk &&
  o.netWriteOk && o.resolvWriteOk && o.umountOk && o.rmScratchOk

-- ── Admission concurrency model (runTask lines 487-521, event loop) ───

/-- Control position of one logical `runTask` invocation, at the
granularity of the event loop: `start` = about to run the admission
check, `waiting` = parked in the polling loop, `running` = past
admission with its sandbox registered, `done` = returned (after
teardown, or after a pre-registration failure). -/
inductive Phase where
  | start
  | waiting
  | running
  | done
deriving DecidableEq, Repr

/-- State of the whole process: each task's owner and phase, and the
live map restricted to what admission observes (which owner is bound to
which task, `none` when absent).  Tasks are named by `Nat`. -/
structure Sys where
  owner : Nat → String
  phase : Nat → Phase
  live : String → Option Nat

/-- Pointwise update of a task's phase. -/
def updPhase (s : Sys) (t : Nat) (p : Phase) : Sys :=
  { s with phase := fun u => if u = t then p else s.phase u }

/-- Pointwise update of one owner's live-map entry. -/
def updLive (s : Sys) (g : String) (v : Option Nat) : Sys :=
  { s with live := fun h => if h = g then v else s.live h }

/-- Initial state: no task has started, the live map is empty. -/
def initSys (ow : Nat → String) : Sys :=
  { owner := ow, phase := fun _ => Phase.start, live := fun _ => none }

/-- One atomic step of the event loop.  The body of `runTask` contains
no `await` outside the admission polling loop, so the code from an
admission check that observes the owner absent, through allocation,
TAP/rootfs/hypervisor setup and `activeVMs.set`, runs as one
uninterruptible block (`admitRun`), or fails before registration and
tears itself down in the same block (`admitFail`); likewise the rest of
the run through `cleanupVM`'s map removal is atomic (`retire`).  A task
that observes the owner present parks in the polling loop
(`checkBusy`), re-checking after each timer tick (`pollRun`,
`pollFail`). -/
inductive Step : Sys → Sys → Prop where
  | checkBusy (s : Sys) (t : Nat) :
      s.phase t = Phase.start → s.live (s.owner t) ≠ none →
      Step s (updPhase s t Phase.waiting)
  | admitRun (s : Sys) (t : Nat) :
      s.phase t = Phase.start → s.live (s.owner t) = none →
      Step s (updLive (updPhase s t Phase.running) (s.owner t) (some t))
  | admitFail (s : Sys) (t : Nat) :
      s.phase t = Phase.start → s.live (s.owner t) = none →
      Step s (updPhase s t Phase.done)
  | pollRun (s : Sys) (t : Nat) :
      s.phase t = Phase.waiting → s.live (s.owner t) = none →
      Step s (updLive (updPhase s t Phase.running) (s.owner t) (some t))
  | pollFail (s : Sys) (t : Nat) :
      s.phase t = Phase.waiting → s.live (s.owner t) = none →
      Step s (updPhase s t Phase.done)
  | retire (s : Sys) (t : Nat) :
      s.phase t = Phase.running →
      Step s (updLive (updPhase s t Phase.done) (s.owner t) none)

/-- Reachability from the initial state with owner assignment `ow`. -/
def Reaches (ow : Nat → String) (s : Sys) : Prop :=
  Relation.ReflTransGen Step (initSys ow) s

/-- The registry invariant: a running task is the one its owner's
live-map entry points at. -/
def SysInv (s : Sys) : Prop :=
  ∀ t, s.phase t = Phase.running → s.live (s.owner t) = some t

-- ── Concrete inputs used by witnesses ─────────────────────────────────

/-- A staging oracle in which every effectful step succeeds. -/
def prepAllOk : PrepOracle :=
  { cpBaseOk := true, mkdirScratchOk := true, mountOk := true, keyOk := true,
    credDirExists := true, credOk := true, gatewayKeySet := false, gatewayOk := true,
    hostExists := fun _ => true, mountCopyOk := fun _ => true,
    netWriteOk := true, resolvWriteOk := true, umountOk := true, rmScratchOk := true }

/-- A staging oracle in which the network-configuration write (an
injection step) throws, everything else succeeding. -/
def prepNetFail : PrepOracle := { prepAllOk with netWriteOk := false }

/-- A staging oracle in which no mount host path exists. -/
def prepNoHost : PrepOracle := { prepAllOk with hostExists := fun _ => false }

/-- A run oracle in which every effectful step succeeds. -/
def oracleAllOk : RunOracle :=
  { tap := { addOk := true, upOk := true, masterOk := true },
    prep := prepAllOk,
    spawn := { oldSocketExists := false, unlinkOldOk := true, socketAppears := true },
    api := fun _ => true,
    sshReady := true,
    upload := CmdOutcome.ok "ready",
    run := CmdOutcome.ok "ok",
    changed := some [],
    syncOk := fun _ => true,
    cleanup := { procDead := false, killOk := true, tapDeleteOk := true,
                 rootfsUnlinkOk := true, socketUnlinkOk := true } }

/-- Like `oracleAllOk` but the guest never becomes reachable over SSH. -/
def oracleSshFail : RunOracle :=
  { oracleAllOk with sshReady := false }

/-- The error `execSync` throws when the remote command exceeded its
timeout: the child was killed by SIGTERM, there is no exit status, and
the output captured so far is attached. -/
def timedOutSSHErr : SSHErr :=
  { status := none, signal := some "SIGTERM", stdout := "partial output", stderr := "" }

/-- The error `execSync` throws when the remote command ran to
completion with exit status 1 and the same captured output. -/
def exitOneSSHErr : SSHErr :=
  { status := some 1, signal := none, stdout := "partial output", stderr := "" }

/-- A run oracle in which the remote execution exceeds its timeout. -/
def oracleExecTimeout : RunOracle :=
  { oracleAllOk with run := CmdOutcome.err timedOutSSHErr }

/-- Owner assignment for the concurrency witness: every task belongs to
the owner "alice". -/
def aliceOwner : Nat → String := fun _ => "alice"

/-- The state after task 0 has been admitted and registered. -/
def sysRun : Sys :=
  updLive (updPhase (initSys aliceOwner) 0 Phase.running)
    ((initSys aliceOwner).owner 0) (some 0)

-- ── Theorems ──────────────────────────────────────────────────────────

-- Allocator helper lemmas.

theorem allocateVm_ok (g : String) (n : Nat) (h : n ≤ 253) :
    allocateVm g n = (Except.ok (n, ipString n), n + 1) := by
  simp [allocateVm, Nat.not_lt.mpr h]

theorem allocateVm_over (g : String) (n : Nat) (h : 253 < n) :
    allocateVm g n = (Except.error maxVmMsg, n + 1) := by
  simp [allocateVm, h]

theorem allocSeq_lb (g : String) :
    ∀ (k n x : Nat), x ∈ (allocSeq g n k).1 → n ≤ x := by
  intro k
  induction k with
  | zero => intro n x hx; simp [allocSeq] at hx
  | succ k ih =>
    intro n x hx
    by_cases h : 253 < n
    · rw [allocSeq, allocateVm_over g n h] at hx
      exact le_trans (Nat.le_succ n) (ih (n + 1) x hx)
    · rw [allocSeq, allocateVm_ok g n (Nat.not_lt.mp h)] at hx
      rcases List.mem_cons.mp hx with h1 | h1
      · omega
      · exact le_trans (Nat.le_succ n) (ih (n + 1) x h1)

theorem allocSeq_pairwise (g : String) :
    ∀ (k n : Nat), ((allocSeq g n k).1).Pairwise (fun a b => a ≠ b) := by
  intro k
  induction k with
  | zero => intro n; simp [allocSeq]
  | succ k ih =>
    intro n
    by_cases h : 253 < n
    · rw [allocSeq, allocateVm_over g n h]
      exact ih (n + 1)
    · rw [allocSeq, allocateVm_ok g n (Nat.not_lt.mp h)]
      refine List.Pairwise.cons ?_ (ih (n + 1))
      intro x hx
      have := allocSeq_lb g k (n + 1) x hx
      omega

theorem allocSeq_counter (g : String) :
    ∀ (k n : Nat), (allocSeq g n k).2 = n + k := by
  intro k
  induction k with
  | zero => intro n; rfl
  | succ k ih =>
    intro n
    by_cases h : 253 < n
    · rw [allocSeq, allocateVm_over g n h]
      rw [ih (n + 1)]; omega
    · rw [allocSeq, allocateVm_ok g n (Nat.not_lt.mp h)]
      show (allocSeq g (n + 1) k).2 = n + (k + 1)
      rw [ih (n + 1)]; omega

/-- C5: on each call the allocator returns the current value of the
monotonically incremented in-memory counter as the sandbox id together
with the IP string 172.16.0.(id+1); once the counter exceeds 253 the
call fails with the capacity error; every accepted id (the counter
starts at 1 and only increments, whence `1 ≤ n`) derives a last octet
between 2 and 254 — inside the /24 subnet, distinct from the reserved
first (.0) and last (.255) addresses and from the bridge 172.16.0.1 —
and the ids of successive successful allocations are pairwise
distinct. -/
theorem c5_allocator (g : String) (n : Nat) (h1 : 1 ≤ n) :
    (n ≤ 253 →
      (allocateVm g n).1 = Except.ok (n, ipString n) ∧
      (allocateVm g n).2 = n + 1 ∧
      ipString n = "172.16.0." ++ toString (ipLastOctet n) ∧
      2 ≤ ipLastOctet n ∧ ipLastOctet n ≤ 254 ∧ ipLastOctet n ≠ 1) ∧
    (253 < n → (allocateVm g n).1 = Except.error maxVmMsg) ∧
    (∀ k, ((allocSeq g n k).1).Pairwise (fun a b => a ≠ b)) := by
  refine ⟨?_, ?_, fun k => allocSeq_pairwise g k n⟩
  · intro h
    rw [allocateVm_ok g n h]
    refine ⟨rfl, rfl, rfl, ?_, ?_, ?_⟩ <;> simp [ipLastOctet] <;> omega
  · intro h
    rw [allocateVm_over g n h]

/-- Witness for C5: the very first allocation, and the first rejected
one. -/
theorem c5_witness :
    (allocateVm "alice" 1).1 = Except.ok (1, ipString 1) ∧
    (allocateVm "alice" 254).1 = Except.error maxVmMsg := by
  exact ⟨((c5_allocator "alice" 1 (by decide)).1 (by decide)).1,
    (c5_allocator "alice" 254 (by decide)).2.1 (by decide)⟩

/-- C6 (code bug): the timeout-reporting branch of `executeTaskViaSSH`
is dead code — an `execSync` error never carries a `killed` property,
so the guard `if (err.killed)` never fires and every remote-command
failure, a timeout included, returns an ordinary (stdout, exitCode)
pair through the catch's fallback.  In particular a timed-out command
(status null, killed by SIGTERM) and a command that exited with status
1 produce literally identical results, so a timeout is not reported as
a timeout-class error distinct from an execution failure, contrary to
the claim and to the source's own (unreachable) timeout branch. -/
theorem c6_timeout_dead_branch :
    (∀ (ip task : String) (timeoutMs : Nat) (u : String) (e : SSHErr),
      executeTaskViaSSH ip task timeoutMs (CmdOutcome.ok u) (CmdOutcome.err e) =
        Except.ok (sshFailurePayload e)) ∧
    executeTaskViaSSH "172.16.0.2" "sleep 600" 1000 (CmdOutcome.ok "up")
        (CmdOutcome.err timedOutSSHErr) =
      executeTaskViaSSH "172.16.0.2" "run-build" 600000 (CmdOutcome.ok "up")
        (CmdOutcome.err exitOneSSHErr) := by
  refine ⟨?_, rfl⟩
  intro ip task timeoutMs u e
  rfl

/-- C7: write-back attempts an scp copy from guest path to host path
for exactly the mounts with `readOnly = false`, in order, whatever the
per-mount outcomes are — so a read-only mount is never written back,
and one mount's copy failure never prevents the attempt for any
remaining mount. -/
theorem c7_writeback (ip : String) (f : Mount → Bool) (mounts : List Mount) :
    syncFilesBack ip f mounts =
      (mounts.filter (fun m => !m.readOnly)).map
        (fun m => Act.scpSync m.guestPath m.hostPath (f m)) := by
  induction mounts with
  | nil => rfl
  | cons m rest ih =>
    by_cases h : m.readOnly
    · simp [syncFilesBack, h, ih]
    · simp only [Bool.not_eq_true] at h
      simp [syncFilesBack, h, ih]

-- Teardown helper lemmas.

theorem runSteps_allCaught :
    ∀ (steps : List (Bool × Bool × Act)), (∀ p ∈ steps, p.2.1 = true) →
      runSteps steps = Except.ok (steps.map (fun p => p.2.2)) := by
  intro steps
  induction steps with
  | nil => intro _; rfl
  | cons p rest ih =>
    intro h
    have hp := h p (List.mem_cons_self p rest)
    have hr := ih (fun q hq => h q (List.mem_cons_of_mem p hq))
    by_cases h1 : p.1
    · simp [runSteps, h1, hr, Except.map]
    · simp only [Bool.not_eq_true] at h1
      simp [runSteps, h1, hp, hr, Except.map]

theorem cleanupVM_eq (o : CleanupOracle) (vm : MicroVM) (live : List (String × MicroVM)) :
    cleanupVM o vm live = Except.ok (eraseKey live vm.groupId,
      [Act.tdKill (!o.procDead) o.killOk,
       Act.tdDestroyTap vm.tapDevice o.tapDeleteOk,
       Act.tdUnlinkRootfs vm.rootfsPath o.rootfsUnlinkOk,
       Act.tdUnlinkSocket vm.socketPath o.socketUnlinkOk,
       Act.tdRemoveMap vm.groupId]) := by
  rw [cleanupVM, runSteps_allCaught (cleanupSteps o vm) ?_]
  · rfl
  · intro p hp
    simp only [cleanupSteps, List.mem_cons, List.not_mem_nil, or_false] at hp
    rcases hp with h | h | h | h | h <;> subst h <;> rfl

/-- C4: teardown of a registered sandbox never raises for any
combination of sub-step failures, performs exactly the five sub-steps
in source order — kill the hypervisor process (skipped when already
dead), destroy the TAP device, unlink the disk image, unlink the
control socket (each tolerating failure, which is swallowed so the
remaining steps still run) — and removes the sandbox from the live
map. -/
theorem c4_teardown (o : CleanupOracle) (vm : MicroVM) (live : List (String × MicroVM)) :
    cleanupVM o vm live = Except.ok (eraseKey live vm.groupId,
      [Act.tdKill (!o.procDead) o.killOk,
       Act.tdDestroyTap vm.tapDevice o.tapDeleteOk,
       Act.tdUnlinkRootfs vm.rootfsPath o.rootfsUnlinkOk,
       Act.tdUnlinkSocket vm.socketPath o.socketUnlinkOk,
       Act.tdRemoveMap vm.groupId]) :=
  cleanupVM_eq o vm live

-- Staging helper lemmas.

theorem prepareRootfs_mounted (o : PrepOracle) (vmId : Nat) (ip cad : String)
    (mounts : List Mount) (hcp : o.cpBaseOk = true) (hmk : o.mkdirScratchOk = true)
    (hmt : o.mountOk = true) :
    (prepareRootfs o vmId ip cad mounts).2.2 =
      [Act.cpBase (rootfsPathOf vmId), Act.mkdirScratch (mountPointOf vmId),
       Act.mountImg (rootfsPathOf vmId) (mountPointOf vmId)] ++
      (stageBody o (mountPointOf vmId) mounts).2 ++
      (if o.umountOk then
        [Act.umountImg (mountPointOf vmId), Act.rmScratch (mountPointOf vmId)]
       else [Act.umountImg (mountPointOf vmId)]) ∧
    (prepareRootfs o vmId ip cad mounts).2.1 = !o.umountOk := by
  by_cases hu : o.umountOk
  · by_cases hr : o.rmScratchOk
    · rcases hb : (stageBody o (mountPointOf vmId) mounts).1 with _ | e <;>
        simp [prepareRootfs, hcp, hmk, hmt, hu, hr, hb]
    · simp only [Bool.not_eq_true] at hr
      simp [prepareRootfs, hcp, hmk, hmt, hu, hr]
  · simp only [Bool.not_eq_true] at hu
    simp [prepareRootfs, hcp, hmk, hmt, hu]

theorem prepareRootfs_result_ok (o : PrepOracle) (vmId : Nat) (ip cad : String)
    (mounts : List Mount) (hcp : o.cpBaseOk = true) (hmk : o.mkdirScratchOk = true)
    (hmt : o.mountOk = true) (hu : o.umountOk = true) (hr : o.rmScratchOk = true)
    (hbody : (stageBody o (mountPointOf vmId) mounts).1 = none) :
    (prepareRootfs o vmId ip cad mounts).1 = Except.ok (rootfsPathOf vmId) := by
  simp [prepareRootfs, hcp, hmk, hmt, hu, hr, hbody]

/-- C8: once the private image is loop-mounted (the copy, scratch-mkdir
and mount steps succeeded), the unmount runs on every exit path of the
staging routine — whatever combination of injection steps (key,
credential, secret, mount copy, network or DNS write) throws — and
whenever the unmount itself does not fail, the scratch mount point is
removed as well and the image is no longer mounted on exit. -/
theorem c8_unmount_always (o : PrepOracle) (vmId : Nat) (ip cad : String)
    (mounts : List Mount) (hcp : o.cpBaseOk = true) (hmk : o.mkdirScratchOk = true)
    (hmt : o.mountOk = true) :
    Act.umountImg (mountPointOf vmId) ∈ (prepareRootfs o vmId ip cad mounts).2.2 ∧
    (o.umountOk = true →
      Act.rmScratch (mountPointOf vmId) ∈ (prepareRootfs o vmId ip cad mounts).2.2 ∧
      (prepareRootfs o vmId ip cad mounts).2.1 = false) := by
  obtain ⟨htr, hfl⟩ := prepareRootfs_mounted o vmId ip cad mounts hcp hmk hmt
  constructor
  · rw [htr]
    by_cases hu : o.umountOk <;> simp [hu]
  · intro hu
    rw [htr, hfl]
    simp [hu]

/-- Witness for C8: a stage whose network-configuration write throws
still unmounts and removes the scratch directory. -/
theorem c8_witness :
    Act.umountImg (mountPointOf 7) ∈
      (prepareRootfs prepNetFail 7 (ipString 7) "/cred" []).2.2 ∧
    Act.rmScratch (mountPointOf 7) ∈
      (prepareRootfs prepNetFail 7 (ipString 7) "/cred" []).2.2 := by
  have h := c8_unmount_always prepNetFail 7 (ipString 7) "/cred" [] rfl rfl rfl
  exact ⟨h.1, (h.2 rfl).1⟩

-- Mount-loop helper lemmas.

theorem copyMountLoop_none (he co : String → Bool) (mp : String) :
    ∀ (mounts : List Mount),
      (∀ m ∈ mounts, he m.hostPath = true → co m.hostPath = true) →
      (copyMountLoop he co mp mounts).1 = none := by
  intro mounts
  induction mounts with
  | nil => intro _; rfl
  | cons m rest ih =>
    intro h
    have hrest := fun q hq => h q (List.mem_cons_of_mem m hq)
    by_cases hex : he m.hostPath = true
    · have hco := h m (List.mem_cons_self m rest) hex
      simp [copyMountLoop, hex, hco, ih hrest]
    · simp only [Bool.not_eq_true] at hex
      simp [copyMountLoop, hex, ih hrest]

theorem copyMountLoop_mem (he co : String → Bool) (mp : String) :
    ∀ (mounts : List Mount),
      (∀ m ∈ mounts, he m.hostPath = true → co m.hostPath = true) →
      ∀ m ∈ mounts,
        (he m.hostPath = true →
          Act.copyMount m.hostPath (guestTargetOf mp m.guestPath) ∈
            (copyMountLoop he co mp mounts).2) ∧
        (he m.hostPath = false →
          Act.skipMount m.hostPath ∈ (copyMountLoop he co mp mounts).2) := by
  intro mounts
  induction mounts with
  | nil => intro _ m hm; simp at hm
  | cons m0 rest ih =>
    intro h m hm
    have hrest := fun q hq => h q (List.mem_cons_of_mem m0 hq)
    rcases List.mem_cons.mp hm with h0 | h0
    · subst h0
      constructor
      · intro hex
        have hco := h m (List.mem_cons_self m rest) hex
        simp [copyMountLoop, hex, hco]
      · intro hex
        simp [copyMountLoop, hex]
    · constructor
      · intro hex
        have hmem := (ih hrest m h0).1 hex
        by_cases hex0 : he m0.hostPath = true
        · have hco0 := h m0 (List.mem_cons_self m0 rest) hex0
          simp [copyMountLoop, hex0, hco0, hmem]
        · simp only [Bool.not_eq_true] at hex0
          simp [copyMountLoop, hex0, hmem]
      · intro hex
        have hmem := (ih hrest m h0).2 hex
        by_cases hex0 : he m0.hostPath = true
        · have hco0 := h m0 (List.mem_cons_self m0 rest) hex0
          simp [copyMountLoop, hex0, hco0, hmem]
        · simp only [Bool.not_eq_true] at hex0
          simp [copyMountLoop, hex0, hmem]

theorem copyMountLoop_no_copy (he co : String → Bool) (mp : String) :
    ∀ (mounts : List Mount) (hp g : String), he hp = false →
      Act.copyMount hp g ∉ (copyMountLoop he co mp mounts).2 := by
  intro mounts
  induction mounts with
  | nil => intro hp g h; simp [copyMountLoop]
  | cons m rest ih =>
    intro hp g h
    by_cases hex : he m.hostPath = true
    · by_cases hco : co m.hostPath = true
      · intro hmem
        simp [copyMountLoop, hex, hco] at hmem
        rcases hmem with ⟨h1, h2⟩ | hmem
        · rw [h1] at h
          rw [h] at hex
          exact Bool.noConfusion hex
        · exact ih hp g h hmem
      · intro hmem
        simp only [Bool.not_eq_true] at hco
        simp [copyMountLoop, hex, hco] at hmem
    · simp only [Bool.not_eq_true] at hex
      intro hmem
      simp [copyMountLoop, hex] at hmem
      exact ih hp g h hmem

theorem stageBody_ok (o : PrepOracle) (mp : String) (mounts : List Mount)
    (hkey : o.keyOk = true) (hcred : o.credOk = true) (hgw : o.gatewayOk = true)
    (hnet : o.netWriteOk = true) (hres : o.resolvWriteOk = true)
    (hloop : (copyMountLoop o.hostExists o.mountCopyOk mp mounts).1 = none) :
    stageBody o mp mounts =
      (none, [Act.injectKey] ++ (if o.credDirExists then [Act.injectCred] else []) ++
        (if o.gatewayKeySet then [Act.injectGatewayKey] else []) ++
        (copyMountLoop o.hostExists o.mountCopyOk mp mounts).2 ++
        [Act.writeNetConfig, Act.writeResolvConf]) := by
  rcases hm : copyMountLoop o.hostExists o.mountCopyOk mp mounts with ⟨e, tm⟩
  rw [hm] at hloop
  simp only at hloop
  subst hloop
  simp [stageBody, hkey, hcred, hgw, hnet, hres, hm]

/-- C9: during staging, every mount whose host path exists has its tree
copied to the derived guest target inside the mounted image, and every
mount whose host path is missing is skipped — the skip is recorded, no
copy for it ever happens, and staging still completes successfully
(provided the staging infrastructure steps and the copies of the
existing mounts succeed). -/
theorem c9_mount_skip (o : PrepOracle) (vmId : Nat) (ip cad : String) (mounts : List Mount)
    (hsteps : stageStepsOk o = true)
    (hcopies : ∀ m ∈ mounts, o.hostExists m.hostPath = true → o.mountCopyOk m.hostPath = true) :
    (prepareRootfs o vmId ip cad mounts).1 = Except.ok (rootfsPathOf vmId) ∧
    ∀ m ∈ mounts,
      (o.hostExists m.hostPath = true →
        Act.copyMount m.hostPath (guestTargetOf (mountPointOf vmId) m.guestPath) ∈
          (prepareRootfs o vmId ip cad mounts).2.2) ∧
      (o.hostExists m.hostPath = false →
        Act.skipMount m.hostPath ∈ (prepareRootfs o vmId ip cad mounts).2.2 ∧
        ∀ g, Act.copyMount m.hostPath g ∉ (prepareRootfs o vmId ip cad mounts).2.2) := by
  simp only [stageStepsOk, Bool.and_eq_true] at hsteps
  obtain ⟨⟨⟨⟨⟨⟨⟨⟨⟨hcp, hmk⟩, hmt⟩, hkey⟩, hcred⟩, hgw⟩, hnet⟩, hres⟩, hu⟩, hr⟩ := hsteps
  have hloop := copyMountLoop_none o.hostExists o.mountCopyOk (mountPointOf vmId) mounts hcopies
  have hbodyEq := stageBody_ok o (mountPointOf vmId) mounts hkey hcred hgw hnet hres hloop
  have htr := (prepareRootfs_mounted o vmId ip cad mounts hcp hmk hmt).1
  constructor
  · exact prepareRootfs_result_ok o vmId ip cad mounts hcp hmk hmt hu hr (by rw [hbodyEq])
  · intro m hm
    have hmem := copyMountLoop_mem o.hostExists o.mountCopyOk (mountPointOf vmId) mounts hcopies m hm
    refine ⟨?_, ?_⟩
    · intro hex
      have hin := hmem.1 hex
      rw [htr, hbodyEq]
      simp [hin]
    · intro hex
      have hskip := hmem.2 hex
      refine ⟨?_, ?_⟩
      · rw [htr, hbodyEq]
        simp [hskip]
      · intro g
        have hnc := copyMountLoop_no_copy o.hostExists o.mountCopyOk (mountPointOf vmId)
          mounts m.hostPath g hex
        rw [htr, hbodyEq]
        split_ifs <;> simp [hnc]

/-- Witness for C9: a run whose single mount has a missing host path
stages successfully and records the skip. -/
theorem c9_witness :
    (prepareRootfs prepNoHost 3 (ipString 3) "/cred"
      [{ hostPath := "/tmp/src", guestPath := "/workspace", readOnly := false }]).1 =
      Except.ok (rootfsPathOf 3) ∧
    Act.skipMount "/tmp/src" ∈
      (prepareRootfs prepNoHost 3 (ipString 3) "/cred"
        [{ hostPath := "/tmp/src", guestPath := "/workspace", readOnly := false }]).2.2 := by
  have h := c9_mount_skip prepNoHost 3 (ipString 3) "/cred"
    [{ hostPath := "/tmp/src", guestPath := "/workspace", readOnly := false }]
    rfl (by intro m hm hex; simp [prepNoHost] at hex)
  exact ⟨h.1, ((h.2 { hostPath := "/tmp/src", guestPath := "/workspace", readOnly := false }
    (by simp)).2 rfl).1⟩

-- Admission/registry invariant lemmas.

theorem sysInv_init (ow : Nat → String) : SysInv (initSys ow) := by
  intro t h
  simp [initSys] at h

theorem sysInv_step {s s2 : Sys} (hinv : SysInv s) (hstep : Step s s2) : SysInv s2 := by
  cases hstep with
  | checkBusy t h1 h2 =>
    intro u hu
    by_cases ht : u = t
    · subst ht
      simp [updPhase] at hu
    · simp only [updPhase] at hu ⊢
      simp only [if_neg ht] at hu
      exact hinv u hu
  | admitRun t h1 h2 =>
    intro u hu
    by_cases ht : u = t
    · subst ht
      simp [updLive, updPhase]
    · simp only [updLive, updPhase] at hu ⊢
      simp only [if_neg ht] at hu
      have h3 := hinv u hu
      by_cases how : s.owner u = s.owner t
      · rw [how, h2] at h3
        exact Option.noConfusion h3
      · simp [how, h3]
  | admitFail t h1 h2 =>
    intro u hu
    by_cases ht : u = t
    · subst ht
      simp [updPhase] at hu
    · simp only [updPhase] at hu ⊢
      simp only [if_neg ht] at hu
      exact hinv u hu
  | pollRun t h1 h2 =>
    intro u hu
    by_cases ht : u = t
    · subst ht
      simp [updLive, updPhase]
    · simp only [updLive, updPhase] at hu ⊢
      simp only [if_neg ht] at hu
      have h3 := hinv u hu
      by_cases how : s.owner u = s.owner t
      · rw [how, h2] at h3
        exact Option.noConfusion h3
      · simp [how, h3]
  | pollFail t h1 h2 =>
    intro u hu
    by_cases ht : u = t
    · subst ht
      simp [updPhase] at hu
    · simp only [updPhase] at hu ⊢
      simp only [if_neg ht] at hu
      exact hinv u hu
  | retire t h1 =>
    intro u hu
    by_cases ht : u = t
    · subst ht
      simp [updLive, updPhase] at hu
    · simp only [updLive, updPhase] at hu ⊢
      simp only [if_neg ht] at hu
      have h3 := hinv u hu
      by_cases how : s.owner u = s.owner t
      · have h4 := hinv t h1
        rw [how, h4] at h3
        injection h3 with h5
        exact absurd h5.symm ht
      · simp [how, h3]

theorem reaches_inv (ow : Nat → String) (s : Sys) (h : Reaches ow s) : SysInv s := by
  induction h with
  | refl => exact sysInv_init ow
  | tail h1 h2 ih => exact sysInv_step ih h2

/-- C2: in every state reachable under the event-loop semantics of
`runTask`'s admission protocol, a task in the `running` region (past
admission, sandbox registered) is exactly the task its owner's live-map
entry names; hence two overlapping `runTask` calls with the same owner
are never both running — the second can pass admission (and so begin
allocating and booting) only from a state where the first has been
removed from the live map by teardown. -/
theorem c2_owner_serialization (ow : Nat → String) (s : Sys) (h : Reaches ow s) (t : Nat)
    (ht : s.phase t = Phase.running) :
    s.live (s.owner t) = some t ∧
    ∀ u, s.phase u = Phase.running → s.owner u = s.owner t → u = t := by
  have hinv := reaches_inv ow s h
  refine ⟨hinv t ht, ?_⟩
  intro u hu how
  have h1 := hinv u hu
  have h2 := hinv t ht
  rw [how, h2] at h1
  injection h1 with h3
  exact h3.symm

theorem c2_reach_example : Reaches aliceOwner sysRun :=
  Relation.ReflTransGen.single (Step.admitRun (initSys aliceOwner) 0 rfl rfl)

/-- Witness for C2: after task 0 for owner "alice" is admitted, the
live map binds "alice" to task 0. -/
theorem c2_witness : sysRun.live "alice" = some 0 := by
  have h := c2_owner_serialization aliceOwner sysRun c2_reach_example 0 (by rfl)
  exact h.1

-- Per-component success characterizations and teardown-free traces.

theorem createTap_ok_iff (o : TapOracle) (vmId : Nat) :
    exceptOk (createTapDevice o vmId).1 = tapOkB o := by
  rcases o with ⟨ao, uo, mo⟩
  cases ao <;> cases uo <;> cases mo <;> rfl

theorem createTapDevice_all (o : TapOracle) (vmId : Nat) :
    ((createTapDevice o vmId).2).all (fun a => !a.isTd) = true := by
  rcases o with ⟨ao, uo, mo⟩
  cases ao <;> cases uo <;> cases mo <;> rfl

theorem copyMountLoop_all (he co : String → Bool) (mp : String) :
    ∀ (mounts : List Mount),
      ((copyMountLoop he co mp mounts).2).all (fun a => !a.isTd) = true := by
  intro mounts
  induction mounts with
  | nil => rfl
  | cons m rest ih =>
    by_cases hex : he m.hostPath = true
    · by_cases hco : co m.hostPath = true
      · simp_all [copyMountLoop, Act.isTd]
      · simp_all [copyMountLoop, Act.isTd]
    · simp_all [copyMountLoop, Act.isTd]

theorem stageBody_all (o : PrepOracle) (mp : String) (mounts : List Mount) :
    ((stageBody o mp mounts).2).all (fun a => !a.isTd) = true := by
  have hloop := copyMountLoop_all o.hostExists o.mountCopyOk mp mounts
  rcases hm : copyMountLoop o.hostExists o.mountCopyOk mp mounts with ⟨e, tm⟩
  rw [hm] at hloop
  unfold stageBody
  rw [hm]
  cases e <;> split_ifs <;> simp_all [List.all_append, Act.isTd]

theorem prepareRootfs_all (o : PrepOracle) (vmId : Nat) (ip cad : String)
    (mounts : List Mount) :
    ((prepareRootfs o vmId ip cad mounts).2.2).all (fun a => !a.isTd) = true := by
  have hbody := stageBody_all o (mountPointOf vmId) mounts
  rcases hb : stageBody o (mountPointOf vmId) mounts with ⟨e, tb⟩
  rw [hb] at hbody
  simp only [prepareRootfs]
  rw [hb]
  cases e <;> split_ifs <;> simp_all [List.all_append, Act.isTd]

theorem copyMountLoop_none_iff (he co : String → Bool) (mp : String) :
    ∀ (mounts : List Mount),
      ((copyMountLoop he co mp mounts).1 = none) ↔
        (mounts.all (fun m => !he m.hostPath || co m.hostPath) = true) := by
  intro mounts
  induction mounts with
  | nil => simp [copyMountLoop]
  | cons m rest ih =>
    by_cases hex : he m.hostPath = true
    · by_cases hco : co m.hostPath = true
      · simp [copyMountLoop, hex, hco, ih]
      · simp only [Bool.not_eq_true] at hco
        simp [copyMountLoop, hex, hco]
    · simp only [Bool.not_eq_true] at hex
      simp [copyMountLoop, hex, ih]

theorem stageBody_none_iff (o : PrepOracle) (mp : String) (mounts : List Mount) :
    ((stageBody o mp mounts).1 = none) ↔ stageBodyOkB o mounts = true := by
  have hiff := copyMountLoop_none_iff o.hostExists o.mountCopyOk mp mounts
  rcases hm : copyMountLoop o.hostExists o.mountCopyOk mp mounts with ⟨e, tm⟩
  rw [hm] at hiff
  unfold stageBody stageBodyOkB
  rw [hm]
  cases e <;> split_ifs <;> simp_all

theorem prepareRootfs_ok_iff (o : PrepOracle) (vmId : Nat) (ip cad : String)
    (mounts : List Mount) :
    exceptOk (prepareRootfs o vmId ip cad mounts).1 = prepOkB o mounts := by
  have hsb := stageBody_none_iff o (mountPointOf vmId) mounts
  rcases hb : stageBody o (mountPointOf vmId) mounts with ⟨e, tb⟩
  rw [hb] at hsb
  simp only [prepareRootfs, prepOkB]
  rw [hb]
  cases e <;> split_ifs <;> simp_all [exceptOk]

theorem startFC_ok_iff (o : SpawnOracle) (vmId : Nat) :
    exceptOk (startFirecrackerProcess o vmId).1 = spawnOkB o := by
  rcases o with ⟨ose, uok, sa⟩
  cases ose <;> cases uok <;> cases sa <;> rfl

theorem startFC_counts (o : SpawnOracle) (vmId : Nat) :
    ((startFirecrackerProcess o vmId).2).countP isTdKill =
      (if spawnProceedsB o && !o.socketAppears then 1 else 0) ∧
    ((startFirecrackerProcess o vmId).2).countP isTdDestroyTap = 0 ∧
    ((startFirecrackerProcess o vmId).2).countP isTdUnlinkRootfs = 0 ∧
    ((startFirecrackerProcess o vmId).2).countP isTdUnlinkSocket = 0 ∧
    ((startFirecrackerProcess o vmId).2).countP isTdRemoveMap = 0 := by
  rcases o with ⟨ose, uok, sa⟩
  cases ose <;> cases uok <;> cases sa <;>
    simp [startFirecrackerProcess, spawnProceedsB, List.countP_cons, List.countP_nil,
      List.countP_append, isTdKill, isTdDestroyTap, isTdUnlinkRootfs, isTdUnlinkSocket,
      isTdRemoveMap]

theorem runApiCalls_none_iff (ok : String → Bool) :
    ∀ (eps : List String), ((runApiCalls ok eps).1 = none) ↔ eps.all ok = true := by
  intro eps
  induction eps with
  | nil => simp [runApiCalls]
  | cons ep rest ih =>
    by_cases h : ok ep = true
    · simp [runApiCalls, h, ih]
    · simp only [Bool.not_eq_true] at h
      simp [runApiCalls, h]

theorem runApiCalls_all (ok : String → Bool) :
    ∀ (eps : List String), ((runApiCalls ok eps).2).all (fun a => !a.isTd) = true := by
  intro eps
  induction eps with
  | nil => rfl
  | cons ep rest ih =>
    by_cases h : ok ep = true
    · simp_all [runApiCalls, Act.isTd]
    · simp_all [runApiCalls]

theorem boot_ok_iff (ok : String → Bool) (vmId : Nat) (ip rp td : String) :
    exceptOk (configureAndBootVM ok vmId ip rp td).1 = apiOkB ok := by
  have h := runApiCalls_none_iff ok bootEndpoints
  rcases hr : runApiCalls ok bootEndpoints with ⟨e, tr⟩
  rw [hr] at h
  unfold configureAndBootVM apiOkB
  rw [hr]
  cases e with
  | none => simp [exceptOk, h.mp rfl]
  | some x =>
    have hx : bootEndpoints.all ok = false := by
      cases hgg : bootEndpoints.all ok
      · rfl
      · exact absurd (h.mpr hgg) (by simp)
    simp [exceptOk, hx]

theorem boot_all (ok : String → Bool) (vmId : Nat) (ip rp td : String) :
    ((configureAndBootVM ok vmId ip rp td).2).all (fun a => !a.isTd) = true := by
  have h := runApiCalls_all ok bootEndpoints
  rcases hr : runApiCalls ok bootEndpoints with ⟨e, tr⟩
  rw [hr] at h
  unfold configureAndBootVM
  rw [hr]
  cases e <;> simpa using h

theorem syncFilesBack_all (ip : String) (f : Mount → Bool) :
    ∀ (mounts : List Mount),
      ((syncFilesBack ip f mounts).all (fun a => !a.isTd)) = true := by
  intro mounts
  induction mounts with
  | nil => rfl
  | cons m rest ih =>
    by_cases h : m.readOnly
    · simp_all [syncFilesBack]
    · simp_all [syncFilesBack, Act.isTd]

-- Count bookkeeping.

theorem isTdKill_td : ∀ a, isTdKill a = true → Act.isTd a = true := by
  intro a
  cases a <;> simp [isTdKill, Act.isTd]

theorem isTdDestroyTap_td : ∀ a, isTdDestroyTap a = true → Act.isTd a = true := by
  intro a
  cases a <;> simp [isTdDestroyTap, Act.isTd]

theorem isTdUnlinkRootfs_td : ∀ a, isTdUnlinkRootfs a = true → Act.isTd a = true := by
  intro a
  cases a <;> simp [isTdUnlinkRootfs, Act.isTd]

theorem isTdUnlinkSocket_td : ∀ a, isTdUnlinkSocket a = true → Act.isTd a = true := by
  intro a
  cases a <;> simp [isTdUnlinkSocket, Act.isTd]

theorem isTdRemoveMap_td : ∀ a, isTdRemoveMap a = true → Act.isTd a = true := by
  intro a
  cases a <;> simp [isTdRemoveMap, Act.isTd]

theorem countP_zero_of_all (l : List Act) (p : Act → Bool)
    (hp : ∀ a, p a = true → Act.isTd a = true)
    (h : l.all (fun a => !a.isTd) = true) : l.countP p = 0 := by
  rw [List.countP_eq_zero]
  intro a ha hpa
  have h1 := List.all_eq_true.mp h a ha
  have h2 := hp a hpa
  simp [h2] at h1

theorem finishWithVm_eq (o : RunOracle) (msg : String) (nv : Nat)
    (live : List (String × MicroVM)) (vm : MicroVM) (tr : List Act) :
    finishWithVm o msg nv live vm tr =
      (Except.ok (errTaskResult msg),
        { nextVmId := nv, activeVMs := eraseKey live vm.groupId },
        tr ++ [Act.tdKill (!o.cleanup.procDead) o.cleanup.killOk,
          Act.tdDestroyTap vm.tapDevice o.cleanup.tapDeleteOk,
          Act.tdUnlinkRootfs vm.rootfsPath o.cleanup.rootfsUnlinkOk,
          Act.tdUnlinkSocket vm.socketPath o.cleanup.socketUnlinkOk,
          Act.tdRemoveMap vm.groupId]) := by
  unfold finishWithVm
  rw [cleanupVM_eq]

theorem runTask_capacity (o : RunOracle) (g task : String) (mounts : List Mount)
    (cad : String) (t : Nat) (s : RunState) (h : 254 ≤ s.nextVmId) :
    runTask o g task mounts cad t s =
      (Except.error maxVmMsg, { nextVmId := s.nextVmId + 1, activeVMs := s.activeVMs }, []) := by
  unfold runTask
  rw [allocateVm_over g s.nextVmId (by omega)]

theorem runTask_counter (o : RunOracle) (g task : String) (mounts : List Mount)
    (cad : String) (t : Nat) (s : RunState) :
    ((runTask o g task mounts cad t s).2.1).nextVmId = s.nextVmId + 1 := by
  by_cases h : s.nextVmId ≤ 253
  · unfold runTask
    rw [allocateVm_ok g s.nextVmId h]
    rcases htap : createTapDevice o.tap s.nextVmId with ⟨e1 | tapDev, tr1⟩
    · simp only [htap]
      rfl
    · simp only [htap]
      rcases hprep : prepareRootfs o.prep s.nextVmId (ipString s.nextVmId) cad mounts with
        ⟨e2 | rootfsPath, mfl, tr2⟩
      · simp only [hprep]
        rfl
      · simp only [hprep]
        rcases hsp : startFirecrackerProcess o.spawn s.nextVmId with ⟨e3 | socketPath, tr3⟩
        · simp only [hsp]
          rfl
        · simp only [hsp]
          rcases hboot : configureAndBootVM o.api s.nextVmId (ipString s.nextVmId)
              rootfsPath tapDev with ⟨e4 | u4, tr4⟩
          · simp only [hboot, finishWithVm_eq]
          · simp only [hboot]
            by_cases hs : o.sshReady = false
            · simp [hs, finishWithVm_eq]
            · simp only [Bool.not_eq_false] at hs
              simp only [hs]
              rcases hexec : executeTaskViaSSH (ipString s.nextVmId) task t o.upload o.run with
                e5 | r5
              · simp [hexec, finishWithVm_eq]
              · simp [hexec, cleanupVM_eq]
  · rw [runTask_capacity o g task mounts cad t s (by omega)]

/-- C10: sandbox ids are never reused within a process lifetime: every
allocator call, including one that fails with the capacity error,
advances the shared counter by exactly one; a whole `runTask`
invocation advances it by exactly one — teardown never decrements it or
returns an id to a pool; iterating the allocator `k` times raises the
counter by `k` (so 253 allocations from the initial value 1 leave it at
254); and once the counter reaches 254, every subsequent `runTask` call
fails with the capacity error even when `activeVMs` is empty. -/
theorem c10_no_reuse :
    (∀ (g : String) (n : Nat), (allocateVm g n).2 = n + 1) ∧
    (∀ (g : String) (k n : Nat), (allocSeq g n k).2 = n + k) ∧
    (∀ (o : RunOracle) (g task : String) (mounts : List Mount) (cad : String)
      (t : Nat) (s : RunState),
      ((runTask o g task mounts cad t s).2.1).nextVmId = s.nextVmId + 1) ∧
    (∀ (o : RunOracle) (g task : String) (mounts : List Mount) (cad : String)
      (t : Nat) (s : RunState), 254 ≤ s.nextVmId →
      (runTask o g task mounts cad t s).1 = Except.error maxVmMsg) := by
  refine ⟨?_, allocSeq_counter, runTask_counter, ?_⟩
  · intro g n
    by_cases hc : 253 < n
    · rw [allocateVm_over g n hc]
    · rw [allocateVm_ok g n (by omega)]
  · intro o g task mounts cad t s hcap
    rw [runTask_capacity o g task mounts cad t s hcap]

/-- Witness for C10: with the counter at 254 and no live sandbox, a
fully-healthy run still fails with the capacity error. -/
theorem c10_witness :
    (runTask oracleAllOk "bob" "task" [] "/creds/bob" 600000
      { nextVmId := 254, activeVMs := [] }).1 = Except.error maxVmMsg :=
  c10_no_reuse.2.2.2 oracleAllOk "bob" "task" [] "/creds/bob" 600000
    { nextVmId := 254, activeVMs := [] } (by decide)

/-- C1 counterexample: the claim fails in two ways.  First,
`allocateVm` is called before `runTask`'s `try` block, so with the id
counter exhausted the capacity error propagates to the caller as an
exception (`Except.error`) instead of being converted into a
`TaskResult`, even though every effectful step would succeed.  Second,
a run whose execution exceeds its timeout fails, yet its `TaskResult`
output is the captured command output — it does not begin with a
human-readable error description — because the `err.killed` check that
should report the timeout never fires on `execSync` errors. -/
theorem c1_counterexample :
    (runTask oracleAllOk "alice" "echo ok" [] "/creds/alice" 5000
        { nextVmId := 254, activeVMs := [] }).1 = Except.error maxVmMsg ∧
    (runTask oracleExecTimeout "alice" "sleep 600" [] "/creds/alice" 1000
        { nextVmId := 1, activeVMs := [] }).1 =
      Except.ok { output := "partial output" ++ "\n" ++ "", filesChanged := [],
                  exitCode := 1, durationMs := 0 } ∧
    ("partial output" ++ "\n" ++ "").take 7 ≠ "Error: " := by
  refine ⟨?_, rfl, by decide⟩
  rw [runTask_capacity oracleAllOk "alice" "echo ok" [] "/creds/alice" 5000
    { nextVmId := 254, activeVMs := [] } (by decide)]

/-- C1 (amended): as long as the id space is not exhausted, `runTask`
always returns a `TaskResult` (never an exception), and whenever any
step inside its `try` block throws — TAP-device allocation, staging,
hypervisor start, boot configuration, or SSH readiness (`bodyFails`
lists exactly the source's fallible calls; the execution arm never
throws because the timeout check is dead, see C6) — the returned
result has exit code 1 and output beginning with a human-readable
error description.  (The claim as stated is false in two ways: the
allocation capacity error thrown by `allocateVm` before the `try`
propagates as an exception, and a timed-out execution's result carries
the captured output rather than an error description — see the
counterexample.) -/
theorem c1_error_result (o : RunOracle) (g task : String) (mounts : List Mount)
    (cad : String) (t : Nat) (s : RunState) (h : s.nextVmId ≤ 253) :
    ∃ r, (runTask o g task mounts cad t s).1 = Except.ok r ∧
      (bodyFails o s.nextVmId (ipString s.nextVmId) task cad mounts t = true →
        r.exitCode = 1 ∧ ∃ msg, r.output = "Error: " ++ msg) := by
  unfold runTask bodyFails
  rw [allocateVm_ok g s.nextVmId h]
  rcases htap : createTapDevice o.tap s.nextVmId with ⟨e1 | tapDev, tr1⟩
  · simp only [htap]
    exact ⟨errTaskResult e1, rfl, fun _ => ⟨rfl, e1, rfl⟩⟩
  · simp only [htap]
    rcases hprep : prepareRootfs o.prep s.nextVmId (ipString s.nextVmId) cad mounts with
      ⟨e2 | rootfsPath, mfl, tr2⟩
    · simp only [hprep]
      exact ⟨errTaskResult e2, rfl, fun _ => ⟨rfl, e2, rfl⟩⟩
    · simp only [hprep]
      rcases hsp : startFirecrackerProcess o.spawn s.nextVmId with ⟨e3 | socketPath, tr3⟩
      · simp only [hsp]
        exact ⟨errTaskResult e3, rfl, fun _ => ⟨rfl, e3, rfl⟩⟩
      · simp only [hsp]
        rcases hboot : configureAndBootVM o.api s.nextVmId (ipString s.nextVmId)
            rootfsPath tapDev with ⟨e4 | u4, tr4⟩
        · simp only [hboot, finishWithVm_eq]
          exact ⟨errTaskResult e4, rfl, fun _ => ⟨rfl, e4, rfl⟩⟩
        · simp only [hboot]
          by_cases hs : o.sshReady = false
          · rw [if_pos hs, if_pos hs, finishWithVm_eq]
            exact ⟨errTaskResult (sshTimeoutMsg (ipString s.nextVmId)), rfl,
              fun _ => ⟨rfl, sshTimeoutMsg (ipString s.nextVmId), rfl⟩⟩
          · rw [if_neg hs, if_neg hs]
            rcases hexec : executeTaskViaSSH (ipString s.nextVmId) task t o.upload o.run with
              e5 | r5
            · simp only [hexec, finishWithVm_eq]
              exact ⟨errTaskResult e5, rfl, fun _ => ⟨rfl, e5, rfl⟩⟩
            · simp only [hexec, cleanupVM_eq]
              exact ⟨{ output := r5.1, filesChanged := getChangedFiles (ipString s.nextVmId)
                         o.changed, exitCode := r5.2, durationMs := 0 }, rfl,
                fun hf => Bool.noConfusion hf⟩

/-- Witness for C1 (amended): a run whose guest never becomes reachable
over SSH yields an error `TaskResult` rather than an exception. -/
theorem c1_witness :
    ∃ r, (runTask oracleSshFail "alice" "echo ok" [] "/creds/alice" 5000
        { nextVmId := 1, activeVMs := [] }).1 = Except.ok r ∧
      r.exitCode = 1 ∧ ∃ msg, r.output = "Error: " ++ msg := by
  obtain ⟨r, h1, h2⟩ := c1_error_result oracleSshFail "alice" "echo ok" [] "/creds/alice" 5000
    { nextVmId := 1, activeVMs := [] } (by decide)
  exact ⟨r, h1, h2 (by rfl)⟩

-- Teardown-subtrace helper lemmas.

theorem isTd_tdKill (a b : Bool) : (Act.tdKill a b).isTd = true := rfl

theorem isTd_tdDestroyTap (tp : String) (b : Bool) : (Act.tdDestroyTap tp b).isTd = true := rfl

theorem isTd_tdUnlinkRootfs (p : String) (b : Bool) : (Act.tdUnlinkRootfs p b).isTd = true := rfl

theorem isTd_tdUnlinkSocket (p : String) (b : Bool) : (Act.tdUnlinkSocket p b).isTd = true := rfl

theorem isTd_tdRemoveMap (gr : String) : (Act.tdRemoveMap gr).isTd = true := rfl

theorem isTd_registerVm (gr : String) (v : Nat) : (Act.registerVm gr v).isTd = false := rfl

theorem filter_td_nil (l : List Act) (h : l.all (fun a => !a.isTd) = true) :
    l.filter (fun a => a.isTd) = [] := by
  rw [List.filter_eq_nil_iff]
  intro a ha
  have h1 := List.all_eq_true.mp h a ha
  simpa using h1

theorem createTap_ok_val (o : TapOracle) (vmId : Nat) (tp : String) (tr : List Act)
    (h : createTapDevice o vmId = (Except.ok tp, tr)) : tp = "tap" ++ toString vmId := by
  rcases o with ⟨ao, uo, mo⟩
  cases ao <;> cases uo <;> cases mo <;> simp [createTapDevice] at h <;> simp_all

theorem startFC_ok_val (o : SpawnOracle) (vmId : Nat) (sp : String) (tr : List Act)
    (h : startFirecrackerProcess o vmId = (Except.ok sp, tr)) : sp = socketPathOf vmId := by
  rcases o with ⟨ose, uok, sa⟩
  cases ose <;> cases uok <;> cases sa <;> simp [startFirecrackerProcess] at h <;> simp_all

theorem prepareRootfs_ok_val (o : PrepOracle) (vmId : Nat) (ip cad : String)
    (mounts : List Mount) (rp : String) (b : Bool) (tr : List Act)
    (h : prepareRootfs o vmId ip cad mounts = (Except.ok rp, b, tr)) :
    rp = rootfsPathOf vmId := by
  simp only [prepareRootfs] at h
  rcases hb : (stageBody o (mountPointOf vmId) mounts).1 with _ | e <;> rw [hb] at h <;>
    split_ifs at h <;> simp_all

theorem startFC_td_filter (o : SpawnOracle) (vmId : Nat) :
    ((startFirecrackerProcess o vmId).2).filter (fun a => a.isTd) =
      (if spawnProceedsB o && !o.socketAppears then [Act.tdKill true true] else []) := by
  rcases o with ⟨ose, uok, sa⟩
  cases ose <;> cases uok <;> cases sa <;>
    simp [startFirecrackerProcess, spawnProceedsB, Act.isTd]

/-- C3: the teardown subtrace of any non-capacity `runTask` invocation
is exactly one release per allocated resource class, in teardown order:
when the sandbox was registered, [kill subprocess, destroy TAP, unlink
disk image, unlink control socket, remove from live map]; when a step
failed before registration, the subprocess kill appears exactly when the
hypervisor was actually spawned (its own failure path kills it), and the
TAP destruction and the two unlinks still each appear exactly once via
the partial-state cleanup.  In particular every allocated resource is
released exactly once on every path. -/
theorem c3_release_exactly_once (o : RunOracle) (g task : String) (mounts : List Mount)
    (cad : String) (t : Nat) (s : RunState) (h : s.nextVmId ≤ 253) :
    (runTrace o g task mounts cad t s).filter (fun a => a.isTd) =
      (if registeredB o mounts then
        [Act.tdKill (!o.cleanup.procDead) o.cleanup.killOk,
         Act.tdDestroyTap ("tap" ++ toString s.nextVmId) o.cleanup.tapDeleteOk,
         Act.tdUnlinkRootfs (rootfsPathOf s.nextVmId) o.cleanup.rootfsUnlinkOk,
         Act.tdUnlinkSocket (socketPathOf s.nextVmId) o.cleanup.socketUnlinkOk,
         Act.tdRemoveMap g]
       else
        (if procSpawnedB o mounts then [Act.tdKill true true] else []) ++
        [Act.tdDestroyTap ("tap" ++ toString s.nextVmId) o.cleanup.tapDeleteOk,
         Act.tdUnlinkRootfs (rootfsPathOf s.nextVmId) o.cleanup.rootfsUnlinkOk,
         Act.tdUnlinkSocket (socketPathOf s.nextVmId) o.cleanup.socketUnlinkOk]) := by
  unfold runTrace runTask
  rw [allocateVm_ok g s.nextVmId h]
  rcases htap : createTapDevice o.tap s.nextVmId with ⟨e1 | tapDev, tr1⟩
  · have hA1 := createTapDevice_all o.tap s.nextVmId
    rw [htap] at hA1
    have hf1 : tr1.filter (fun a => a.isTd) = [] := filter_td_nil tr1 hA1
    have hTapF : tapOkB o.tap = false := by
      have hI := createTap_ok_iff o.tap s.nextVmId
      rw [htap] at hI
      exact hI.symm
    simp only [htap]
    simp [finishNoVm, nullCleanup, destroyTapDevice, List.filter_append, hf1,
      registeredB, procSpawnedB, hTapF, isTd_tdKill, isTd_tdDestroyTap, isTd_tdUnlinkRootfs, isTd_tdUnlinkSocket, isTd_tdRemoveMap, isTd_registerVm]
  · have hA1 := createTapDevice_all o.tap s.nextVmId
    rw [htap] at hA1
    have hf1 : tr1.filter (fun a => a.isTd) = [] := filter_td_nil tr1 hA1
    have hTapT : tapOkB o.tap = true := by
      have hI := createTap_ok_iff o.tap s.nextVmId
      rw [htap] at hI
      exact hI.symm
    simp only [htap]
    rcases hprep : prepareRootfs o.prep s.nextVmId (ipString s.nextVmId) cad mounts with
      ⟨e2 | rootfsPath, mfl, tr2⟩
    · have hA2 := prepareRootfs_all o.prep s.nextVmId (ipString s.nextVmId) cad mounts
      rw [hprep] at hA2
      have hf2 : tr2.filter (fun a => a.isTd) = [] := filter_td_nil tr2 hA2
      have hPrepF : prepOkB o.prep mounts = false := by
        have hI := prepareRootfs_ok_iff o.prep s.nextVmId (ipString s.nextVmId) cad mounts
        rw [hprep] at hI
        exact hI.symm
      simp only [hprep]
      simp [finishNoVm, nullCleanup, destroyTapDevice, List.filter_append, hf1, hf2,
        registeredB, procSpawnedB, hTapT, hPrepF, isTd_tdKill, isTd_tdDestroyTap, isTd_tdUnlinkRootfs, isTd_tdUnlinkSocket, isTd_tdRemoveMap, isTd_registerVm]
    · have hA2 := prepareRootfs_all o.prep s.nextVmId (ipString s.nextVmId) cad mounts
      rw [hprep] at hA2
      have hf2 : tr2.filter (fun a => a.isTd) = [] := filter_td_nil tr2 hA2
      have hPrepT : prepOkB o.prep mounts = true := by
        have hI := prepareRootfs_ok_iff o.prep s.nextVmId (ipString s.nextVmId) cad mounts
        rw [hprep] at hI
        exact hI.symm
      simp only [hprep]
      rcases hsp : startFirecrackerProcess o.spawn s.nextVmId with ⟨e3 | socketPath, tr3⟩
      · have hf3 : tr3.filter (fun a => a.isTd) =
            (if spawnProceedsB o.spawn && !o.spawn.socketAppears then [Act.tdKill true true]
             else []) := by
          have hq := startFC_td_filter o.spawn s.nextVmId
          rw [hsp] at hq
          exact hq
        have hSpF : spawnOkB o.spawn = false := by
          have hI := startFC_ok_iff o.spawn s.nextVmId
          rw [hsp] at hI
          exact hI.symm
        simp only [hsp]
        cases hpr : spawnProceedsB o.spawn <;> cases hsa : o.spawn.socketAppears
        · simp [finishNoVm, nullCleanup, destroyTapDevice, List.filter_append, hf1, hf2,
            hf3, registeredB, procSpawnedB, spawnOkB, hTapT, hPrepT, hpr, hsa, isTd_tdKill, isTd_tdDestroyTap, isTd_tdUnlinkRootfs, isTd_tdUnlinkSocket, isTd_tdRemoveMap, isTd_registerVm]
        · simp [finishNoVm, nullCleanup, destroyTapDevice, List.filter_append, hf1, hf2,
            hf3, registeredB, procSpawnedB, spawnOkB, hTapT, hPrepT, hpr, hsa, isTd_tdKill, isTd_tdDestroyTap, isTd_tdUnlinkRootfs, isTd_tdUnlinkSocket, isTd_tdRemoveMap, isTd_registerVm]
        · simp [finishNoVm, nullCleanup, destroyTapDevice, List.filter_append, hf1, hf2,
            hf3, registeredB, procSpawnedB, spawnOkB, hTapT, hPrepT, hpr, hsa, isTd_tdKill, isTd_tdDestroyTap, isTd_tdUnlinkRootfs, isTd_tdUnlinkSocket, isTd_tdRemoveMap, isTd_registerVm]
        · simp [spawnOkB, hpr, hsa] at hSpF
      · have hSpT : spawnOkB o.spawn = true := by
          have hI := startFC_ok_iff o.spawn s.nextVmId
          rw [hsp] at hI
          exact hI.symm
        have hps := hSpT
        simp only [spawnOkB, Bool.and_eq_true] at hps
        obtain ⟨hpr, hsa⟩ := hps
        have hf3 : tr3.filter (fun a => a.isTd) = [] := by
          have hq := startFC_td_filter o.spawn s.nextVmId
          rw [hsp] at hq
          simpa [hpr, hsa] using hq
        have hv1 : tapDev = "tap" ++ toString s.nextVmId :=
          createTap_ok_val o.tap s.nextVmId tapDev tr1 htap
        have hv2 : rootfsPath = rootfsPathOf s.nextVmId :=
          prepareRootfs_ok_val o.prep s.nextVmId (ipString s.nextVmId) cad mounts
            rootfsPath mfl tr2 hprep
        have hv3 : socketPath = socketPathOf s.nextVmId :=
          startFC_ok_val o.spawn s.nextVmId socketPath tr3 hsp
        subst hv1
        subst hv2
        subst hv3
        simp only [hsp]
        rcases hboot : configureAndBootVM o.api s.nextVmId (ipString s.nextVmId)
            (rootfsPathOf s.nextVmId) ("tap" ++ toString s.nextVmId) with ⟨e4 | u4, tr4⟩
        · have hA4 := boot_all o.api s.nextVmId (ipString s.nextVmId)
            (rootfsPathOf s.nextVmId) ("tap" ++ toString s.nextVmId)
          rw [hboot] at hA4
          have hf4 : tr4.filter (fun a => a.isTd) = [] := filter_td_nil tr4 hA4
          simp only [hboot, finishWithVm_eq]
          simp [List.filter_append, hf1, hf2, hf3, hf4, registeredB, hTapT, hPrepT,
            hSpT, isTd_tdKill, isTd_tdDestroyTap, isTd_tdUnlinkRootfs, isTd_tdUnlinkSocket, isTd_tdRemoveMap, isTd_registerVm]
        · have hA4 := boot_all o.api s.nextVmId (ipString s.nextVmId)
            (rootfsPathOf s.nextVmId) ("tap" ++ toString s.nextVmId)
          rw [hboot] at hA4
          have hf4 : tr4.filter (fun a => a.isTd) = [] := filter_td_nil tr4 hA4
          simp only [hboot]
          by_cases hs : o.sshReady = false
          · rw [if_pos hs, finishWithVm_eq]
            simp [List.filter_append, hf1, hf2, hf3, hf4, registeredB, hTapT, hPrepT,
              hSpT, isTd_tdKill, isTd_tdDestroyTap, isTd_tdUnlinkRootfs, isTd_tdUnlinkSocket, isTd_tdRemoveMap, isTd_registerVm]
          · rw [if_neg hs]
            rcases hexec : executeTaskViaSSH (ipString s.nextVmId) task t o.upload o.run with
              e5 | r5
            · simp only [hexec, finishWithVm_eq]
              simp [List.filter_append, hf1, hf2, hf3, hf4, registeredB, hTapT, hPrepT,
                hSpT, isTd_tdKill, isTd_tdDestroyTap, isTd_tdUnlinkRootfs, isTd_tdUnlinkSocket, isTd_tdRemoveMap, isTd_registerVm]
            · have hfS : (syncFilesBack (ipString s.nextVmId) o.syncOk mounts).filter
                  (fun a => a.isTd) = [] :=
                filter_td_nil _ (syncFilesBack_all (ipString s.nextVmId) o.syncOk mounts)
              simp only [hexec, cleanupVM_eq]
              simp [List.filter_append, hf1, hf2, hf3, hf4, hfS, registeredB, hTapT,
                hPrepT, hSpT, isTd_tdKill, isTd_tdDestroyTap, isTd_tdUnlinkRootfs, isTd_tdUnlinkSocket, isTd_tdRemoveMap, isTd_registerVm]

/-- Witness for C3: a fully successful run's teardown subtrace is
exactly the five release steps, once each. -/
theorem c3_witness :
    (runTrace oracleAllOk "alice" "task" [] "/creds/alice" 5000
        { nextVmId := 1, activeVMs := [] }).filter (fun a => a.isTd) =
      [Act.tdKill true true, Act.tdDestroyTap ("tap" ++ toString 1) true,
       Act.tdUnlinkRootfs (rootfsPathOf 1) true, Act.tdUnlinkSocket (socketPathOf 1) true,
       Act.tdRemoveMap "alice"] := by
  have h := c3_release_exactly_once oracleAllOk "alice" "task" [] "/creds/alice" 5000
    { nextVmId := 1, activeVMs := [] } (by decide)
  rw [h]
  rfl

end NanoClaw
